import Mathlib

/-
Verification of the redundant-WAN resilience simulation (src/ex.cc).

The repository's single source file is an ns-3 scenario driver: it builds the
three-site topology (HQ = node 0, Branch = node 1, DC = node 2), installs the
static routes with their metrics, schedules the HQ-DC link failure at t = 4.0 s
on both ends, and runs an echo client from HQ toward 10.1.3.2.  The generic
engine parts (event scheduler, static-routing lookup, forwarding walk, the
device active flag) live in the ns-3 framework and are not part of src/; those
are modelled here from the specification, while every scenario constant
(addresses, masks, next hops, interface indices, metrics, schedule times) is
taken from src/ex.cc.

Conventions: IPv4 addresses and masks are natural numbers below 2^32; node and
interface identifiers are natural numbers; simulated time is in milliseconds
(4.0 s = 4000).
-/

namespace WanSim

/-- An IPv4 dotted-quad address as a natural number. -/
def ipv4 (a b c d : Nat) : Nat := ((a * 256 + b) * 256 + c) * 256 + d

/-- Number of set bits of a 32-bit mask: the matching mask length used by
longest-match comparison. -/
def maskLen (m : Nat) : Nat := (List.range 32).countP (fun i => m.testBit i)

/-- A static route entry: destination network, destination mask, next-hop
address, egress interface index, and metric (lower preferred).  Mirrors the
argument lists of the `AddNetworkRouteTo` calls in src/ex.cc. -/
structure Route where
  network : Nat
  mask : Nat
  nextHop : Nat
  ifaceIndex : Nat
  metric : Nat
deriving DecidableEq

/-- Comparison of routes by metric, ascending; the sort order of candidates. -/
def metricLe (a b : Route) : Prop := a.metric ≤ b.metric

instance : DecidableRel metricLe := fun a b => Nat.decLe a.metric b.metric

instance : IsTotal Route metricLe := ⟨fun a b => Nat.le_total a.metric b.metric⟩

instance : IsTrans Route metricLe := ⟨fun _ _ _ => Nat.le_trans⟩

/-- Modelled from the spec: the route-match test of the RoutingTable lookup,
which is not in src/ (it is ns-3 framework code).  A route matches a
destination address when the address masked with the route's mask equals the
route's network. -/
def matchesRoute (dest : Nat) (r : Route) : Bool :=
  Nat.land dest r.mask == r.network

/-- Modelled from the spec: the single longest matching mask length among all
routes of the table that match the destination (0 when none match). -/
def bestMaskLen (table : List Route) (dest : Nat) : Nat :=
  ((table.filter (matchesRoute dest)).map (fun r => maskLen r.mask)).foldr max 0

/-- Modelled from the spec: membership in the longest-match set — the route
matches the destination and its matching mask length equals the single longest
mask length among all matches. -/
def isLpm (table : List Route) (dest : Nat) (r : Route) : Bool :=
  matchesRoute dest r && (maskLen r.mask == bestMaskLen table dest)

/-- Modelled from the spec: `LookupCandidates(destinationAddress)` of the
RoutingTable component, which is not in src/ (ns-3 framework code).  It keeps
exactly the longest-match routes and sorts them ascending by metric with a
stable sort, so equal-metric entries stay in insertion order; no match gives
the empty sequence. -/
def LookupCandidates (table : List Route) (dest : Nat) : List Route :=
  List.insertionSort metricLe (table.filter (isLpm table dest))

/-- Reasons a packet can be dropped. -/
inductive DropReason where
  | noRoute
  | allRoutesDown
deriving DecidableEq

/-- Outcome of sending one packet: delivered to a node, or dropped with a
reason.  These are ordinary values, the only possible results of a send. -/
inductive Outcome where
  | delivered (node : Nat)
  | dropped (reason : DropReason)
deriving DecidableEq

/-- Modelled from the spec: the candidate walk of the ForwardingEngine (not in
src/): the first candidate, in the order given, whose egress interface is
active; `none` when every candidate's interface is inactive. -/
def firstActive (act : Nat → Bool) : List Route → Option Route
  | [] => none
  | r :: rest => if act r.ifaceIndex then some r else firstActive act rest

/-- The mutable simulation state: the per-node, per-interface active flags and
the per-node routing tables. -/
structure SimState where
  act : Nat → Nat → Bool
  tables : Nat → List Route
deriving Inhabited

/-- Modelled from the spec: `Forward(sourceNode, packet)` of the
ForwardingEngine (not in src/; ns-3 framework code).  Look up the candidates;
if none, drop with `NoRoute`; otherwise deliver across the link of the first
candidate whose egress interface is active, and drop with `AllRoutesDown` when
every candidate's interface is inactive.  `topo` gives the peer node reached
across the link terminating a given node's interface. -/
def Forward (topo : Nat → Nat → Nat) (s : SimState) (srcNode dest : Nat) : Outcome :=
  let cands := LookupCandidates (s.tables srcNode) dest
  if cands = [] then
    .dropped .noRoute
  else
    match firstActive (s.act srcNode) cands with
    | some r => .delivered (topo srcNode r.ifaceIndex)
    | none => .dropped .allRoutesDown

/-- The route the forwarding walk picks for a packet, if any. -/
def chosenRoute (s : SimState) (srcNode dest : Nat) : Option Route :=
  firstActive (s.act srcNode) (LookupCandidates (s.tables srcNode) dest)

/-- Modelled from `DisableLink` in src/ex.cc: set one interface's active flag
to false, touching nothing else. -/
def applyDisable (node iface : Nat) (s : SimState) : SimState :=
  { s with act := fun n i => if n = node ∧ i = iface then false else s.act n i }

/-- A scheduled action: a link-failure injection (`DisableLink` in src/ex.cc)
or a packet send. -/
inductive Action where
  | disable (node iface : Nat)
  | send (src dest : Nat)
deriving DecidableEq

/-- Whether an action is a packet send. -/
def isSend : Action → Bool
  | .send _ _ => true
  | _ => false

/-- Modelled from the spec: executing one event's action.  A disable mutates
the state and records no packet outcome; a send leaves the state unchanged and
records the forwarding outcome. -/
def stepAction (topo : Nat → Nat → Nat) (s : SimState) : Action → SimState × Option Outcome
  | .disable n i => (applyDisable n i s, none)
  | .send src dest => (s, some (Forward topo s src dest))

/-- Modelled from the spec: the scheduler's pop-execute loop over an already
ordered action list — every action is executed to completion, its outcome (if
a send) recorded, and the loop always continues to the next action. -/
def runActions (topo : Nat → Nat → Nat) : List Action → SimState → SimState × List Outcome
  | [], s => (s, [])
  | a :: rest, s =>
    let r := stepAction topo s a
    let rec' := runActions topo rest r.1
    (rec'.1, r.2.toList ++ rec'.2)

/-- Modelled from the spec: the total order on scheduled events — by time
first, then by insertion sequence number (FIFO tie-break).  An event is a
triple (time, sequence number, payload). -/
def evLe {α : Type} (a b : Nat × Nat × α) : Prop :=
  a.1 < b.1 ∨ (a.1 = b.1 ∧ a.2.1 ≤ b.2.1)

instance {α : Type} : DecidableRel (@evLe α) := fun a b =>
  inferInstanceAs (Decidable (a.1 < b.1 ∨ (a.1 = b.1 ∧ a.2.1 ≤ b.2.1)))

instance {α : Type} : IsTotal (Nat × Nat × α) evLe :=
  ⟨fun a b => by unfold evLe; omega⟩

instance {α : Type} : IsTrans (Nat × Nat × α) evLe :=
  ⟨fun a b c hab hbc => by unfold evLe at hab hbc ⊢; omega⟩

/-- Modelled from the spec: `Schedule` called once per list entry, in list
order; each call stamps the event with the next insertion sequence number. -/
def scheduleAll {α : Type} (evs : List (Nat × α)) : List (Nat × Nat × α) :=
  evs.enum.map (fun p => (p.2.1, p.1, p.2.2))

/-- Modelled from the spec: the order in which the scheduler executes events —
sorted by (time, insertion sequence number) with a stable sort. -/
def executionOrder {α : Type} (evs : List (Nat × Nat × α)) : List (Nat × Nat × α) :=
  List.insertionSort evLe evs

/-- Modelled from the spec: `Run(stopTime)` — drain the scheduled events in
execution order, keeping only those due at or before the stop time, and
execute them all regardless of individual packet outcomes. -/
def runSim (topo : Nat → Nat → Nat) (stop : Nat) (evs : List (Nat × Action))
    (s : SimState) : SimState × List Outcome :=
  runActions topo
    (((executionOrder (scheduleAll evs)).filter (fun e => e.1 ≤ stop)).map
      (fun e => e.2.2)) s

/-! ### Scenario constants from src/ex.cc -/

/-- The /24 network mask 255.255.255.0 used by every route in src/ex.cc. -/
def mask24 : Nat := ipv4 255 255 255 0

/-- HQ's primary route to 10.1.3.0/24: next hop 10.1.2.2, egress interface 2,
metric 10 (src/ex.cc lines 106-112). -/
def hqPrimary : Route := ⟨ipv4 10 1 3 0, mask24, ipv4 10 1 2 2, 2, 10⟩

/-- HQ's backup route to 10.1.3.0/24: next hop 10.1.1.2, egress interface 1,
metric 20 (src/ex.cc lines 117-123). -/
def hqBackup : Route := ⟨ipv4 10 1 3 0, mask24, ipv4 10 1 1 2, 1, 20⟩

/-- Branch's first route to 10.1.2.0/24: next hop 10.1.3.2, egress
interface 2, added without an explicit metric, hence the default metric 0
(src/ex.cc lines 131-136). -/
def branchViaDC : Route := ⟨ipv4 10 1 2 0, mask24, ipv4 10 1 3 2, 2, 0⟩

/-- Branch's second route to 10.1.2.0/24: next hop 10.1.1.1, egress
interface 1, added without an explicit metric, hence the default metric 0
(src/ex.cc lines 140-145). -/
def branchViaHQ : Route := ⟨ipv4 10 1 2 0, mask24, ipv4 10 1 1 1, 1, 0⟩

/-- DC's primary route to 10.1.1.0/24: next hop 10.1.2.1, egress interface 1,
metric 10 (src/ex.cc lines 154-160). -/
def dcPrimary : Route := ⟨ipv4 10 1 1 0, mask24, ipv4 10 1 2 1, 1, 10⟩

/-- DC's backup route to 10.1.1.0/24: next hop 10.1.3.1, egress interface 2,
metric 20 (src/ex.cc lines 165-171). -/
def dcBackup : Route := ⟨ipv4 10 1 1 0, mask24, ipv4 10 1 3 1, 2, 20⟩

/-- The per-node routing tables configured in src/ex.cc, in insertion order. -/
def scnTables : Nat → List Route
  | 0 => [hqPrimary, hqBackup]
  | 1 => [branchViaDC, branchViaHQ]
  | 2 => [dcPrimary, dcBackup]
  | _ => []

/-- The peer node across the link terminating each interface, from the three
point-to-point installs of src/ex.cc (interface 0 is loopback on every node;
HQ: 1 = HQ-Branch, 2 = HQ-DC; Branch: 1 = HQ-Branch, 2 = Branch-DC;
DC: 1 = HQ-DC, 2 = Branch-DC). -/
def scnTopo : Nat → Nat → Nat
  | 0, 1 => 1
  | 0, 2 => 2
  | 1, 1 => 0
  | 1, 2 => 2
  | 2, 1 => 0
  | 2, 2 => 1
  | n, _ => n

/-- The initial state: every interface active, tables as configured. -/
def initState : SimState := ⟨fun _ _ => true, scnTables⟩

/-- The destination every generated packet is addressed to:
`interfacesBranchDC.GetAddress(1)` = 10.1.3.2, the DC's address on the
Branch-DC network (src/ex.cc lines 194-198). -/
def clientDest : Nat := ipv4 10 1 3 2

/-- A packet of the echo client's stream: client start 2.0 s, interval 1.0 s,
payload 1024, every packet addressed to `clientDest`
(src/ex.cc lines 198-204). -/
structure Packet where
  src : Nat
  dest : Nat
  size : Nat
  t : Nat
deriving DecidableEq

/-- The k-th packet the traffic client generates. -/
def genPacket (k : Nat) : Packet := ⟨0, clientDest, 1024, 2000 + 1000 * k⟩

/-- The scheduled link-failure events of src/ex.cc lines 176-183: at t = 4.0 s
disable HQ's HQ-DC device (node 0, interface 2) and DC's HQ-DC device
(node 2, interface 1). -/
def failureEvents : List (Nat × Action) :=
  [(4000, .disable 0 2), (4000, .disable 2 1)]

/-- The simulation state at time t: the failure events due at or before t,
applied in execution order to the initial state. -/
def stateAt (t : Nat) : SimState := (runSim scnTopo t failureEvents initState).1

/-! ### Supporting lemmas on the lookup -/

theorem mem_le_foldr_max {l : List Nat} {a : Nat} (h : a ∈ l) : a ≤ l.foldr max 0 := by
  induction l with
  | nil => cases h
  | cons b t ih =>
    simp only [List.foldr_cons]
    rcases List.mem_cons.mp h with rfl | ht
    · exact Nat.le_max_left _ _
    · exact (ih ht).trans (Nat.le_max_right _ _)

theorem maskLen_le_bestMaskLen {table : List Route} {dest : Nat} {r : Route}
    (hr : r ∈ table) (hm : matchesRoute dest r = true) :
    maskLen r.mask ≤ bestMaskLen table dest :=
  mem_le_foldr_max (List.mem_map_of_mem _ (List.mem_filter.mpr ⟨hr, hm⟩))

theorem filter_orderedInsert (p : Route → Bool) (a : Route) (L : List Route)
    (hp : p a = true → ∀ b ∈ L, p b = true → metricLe a b) :
    (L.orderedInsert metricLe a).filter p = (a :: L).filter p := by
  induction L with
  | nil => rfl
  | cons b t ih =>
    by_cases hr : metricLe a b
    · rw [List.orderedInsert_of_le _ _ hr]
    · have hstep : List.orderedInsert metricLe a (b :: t)
          = b :: List.orderedInsert metricLe a t := by
        simp [List.orderedInsert, if_neg hr]
      rw [hstep]
      have ih' := ih (fun ha c hc hcp => hp ha c (List.mem_cons_of_mem _ hc) hcp)
      by_cases hpa : p a = true
      · have hpb : p b = false := by
          by_contra hb
          exact hr (hp hpa b (List.mem_cons_self b t)
            (by revert hb; cases p b <;> simp))
        simp [List.filter_cons, hpa, hpb, ih']
      · have hpa' : p a = false := by revert hpa; cases p a <;> simp
        simp [List.filter_cons, hpa', ih']

theorem filter_insertionSort (p : Route → Bool)
    (hp : ∀ a b : Route, p a = true → p b = true → metricLe a b) (l : List Route) :
    (List.insertionSort metricLe l).filter p = l.filter p := by
  induction l with
  | nil => rfl
  | cons a t ih =>
    have h1 : List.insertionSort metricLe (a :: t)
        = List.orderedInsert metricLe a (List.insertionSort metricLe t) := rfl
    rw [h1, filter_orderedInsert p a _ (fun ha b _ hb => hp a b ha hb)]
    simp [List.filter_cons, ih]

theorem lookup_eq_nil_of_no_match {table : List Route} {dest : Nat}
    (h : ∀ r ∈ table, matchesRoute dest r = false) :
    LookupCandidates table dest = [] := by
  have hf : table.filter (isLpm table dest) = [] := by
    apply List.filter_eq_nil_iff.mpr
    intro r hr
    simp [isLpm, h r hr]
  rw [LookupCandidates, hf]
  rfl

/-! ### Supporting lemmas on the forwarding walk -/

theorem firstActive_eq_none {act : Nat → Bool} {l : List Route}
    (h : ∀ r ∈ l, act r.ifaceIndex = false) : firstActive act l = none := by
  induction l with
  | nil => rfl
  | cons r t ih =>
    simp only [firstActive]
    rw [if_neg (by simp [h r (List.mem_cons_self r t)])]
    exact ih (fun x hx => h x (List.mem_cons_of_mem _ hx))

theorem firstActive_eq_get {act : Nat → Bool} {l : List Route} (i : Nat) (hi : i < l.length)
    (hact : act (l.get ⟨i, hi⟩).ifaceIndex = true)
    (hprev : ∀ j (hj : j < i), act (l.get ⟨j, Nat.lt_trans hj hi⟩).ifaceIndex = false) :
    firstActive act l = some (l.get ⟨i, hi⟩) := by
  induction l generalizing i with
  | nil => exact absurd hi (Nat.not_lt_zero i)
  | cons r t ih =>
    cases i with
    | zero =>
      simp only [firstActive]
      rw [if_pos (show act r.ifaceIndex = true from hact)]
      rfl
    | succ k =>
      have h0 : act r.ifaceIndex = false := hprev 0 (Nat.succ_pos k)
      simp only [firstActive]
      rw [if_neg (by simp [h0])]
      exact ih k (Nat.lt_of_succ_lt_succ hi) hact
        (fun j hj => hprev (j + 1) (Nat.succ_lt_succ hj))

/-! ### Claim theorems -/

/-- Claim C3: for every destination address, `LookupCandidates` returns
exactly the routes whose network/mask match the address and whose matching
mask length equals the single longest mask length among all matches, sorted
ascending by metric with equal-metric entries in insertion order; if no route
matches it returns the empty sequence. -/
theorem lookupCandidates_spec (table : List Route) (dest : Nat) :
    (∀ r ∈ table, matchesRoute dest r = true → maskLen r.mask ≤ bestMaskLen table dest)
    ∧ (LookupCandidates table dest).Perm
        (table.filter (fun r =>
          matchesRoute dest r && (maskLen r.mask == bestMaskLen table dest)))
    ∧ List.Sorted metricLe (LookupCandidates table dest)
    ∧ (∀ m : Nat, (LookupCandidates table dest).filter (fun r => r.metric == m)
        = (table.filter (fun r =>
            matchesRoute dest r && (maskLen r.mask == bestMaskLen table dest))).filter
          (fun r => r.metric == m))
    ∧ ((∀ r ∈ table, matchesRoute dest r = false) → LookupCandidates table dest = []) := by
  refine ⟨fun r hr hm => maskLen_le_bestMaskLen hr hm, ?_, ?_, ?_,
    fun h => lookup_eq_nil_of_no_match h⟩
  · exact List.perm_insertionSort metricLe _
  · exact List.sorted_insertionSort metricLe _
  · intro m
    exact filter_insertionSort (fun r => r.metric == m)
      (fun a b ha hb => by
        have ha' : a.metric = m := by simpa using ha
        have hb' : b.metric = m := by simpa using hb
        simp [metricLe, ha', hb']) _

/-- Witness for the C3 theorem at concrete inputs: HQ's table with the
client's destination for the longest-match bound, and an address outside
every configured network for the empty result. -/
theorem lookupCandidates_spec_witness :
    maskLen hqPrimary.mask ≤ bestMaskLen (scnTables 0) clientDest
    ∧ LookupCandidates (scnTables 0) (ipv4 99 0 0 1) = [] :=
  ⟨(lookupCandidates_spec (scnTables 0) clientDest).1 hqPrimary (by decide) (by decide),
   (lookupCandidates_spec (scnTables 0) (ipv4 99 0 0 1)).2.2.2.2 (by decide)⟩

/-- Claim C1: `Forward` walks the candidates in the order produced by the
lookup and delivers across the link of the first candidate whose egress
interface is active (continuing past inactive candidates rather than
stopping), and drops the packet with reason `AllRoutesDown` when every
candidate's egress interface is inactive.  The state is an argument, so the
walk is re-evaluated independently for every packet. -/
theorem forward_walks_candidates (topo : Nat → Nat → Nat) (s : SimState) (src dest : Nat) :
    ((∀ r ∈ LookupCandidates (s.tables src) dest, s.act src r.ifaceIndex = false) →
      LookupCandidates (s.tables src) dest ≠ [] →
      Forward topo s src dest = .dropped .allRoutesDown)
    ∧ (∀ i (hi : i < (LookupCandidates (s.tables src) dest).length),
        s.act src ((LookupCandidates (s.tables src) dest).get ⟨i, hi⟩).ifaceIndex = true →
        (∀ j (hj : j < i),
          s.act src ((LookupCandidates (s.tables src) dest).get
            ⟨j, Nat.lt_trans hj hi⟩).ifaceIndex = false) →
        Forward topo s src dest
            = .delivered (topo src
                ((LookupCandidates (s.tables src) dest).get ⟨i, hi⟩).ifaceIndex)
          ∧ chosenRoute s src dest
            = some ((LookupCandidates (s.tables src) dest).get ⟨i, hi⟩)) := by
  constructor
  · intro hall hne
    have hfa : firstActive (s.act src) (LookupCandidates (s.tables src) dest) = none :=
      firstActive_eq_none hall
    simp only [Forward]
    rw [if_neg hne, hfa]
  · intro i hi hact hprev
    have hne : LookupCandidates (s.tables src) dest ≠ [] := by
      intro h
      rw [h] at hi
      exact absurd hi (Nat.not_lt_zero i)
    have hfa := firstActive_eq_get i hi hact hprev
    constructor
    · simp only [Forward]
      rw [if_neg hne, hfa]
    · simp only [chosenRoute]
      rw [hfa]

/-- Witness for the C1 theorem: in the post-failure state at t = 5.0 s, HQ's
metric-10 candidate (position 0) has an inactive interface and the metric-20
candidate (position 1) an active one, so the walk delivers to the branch
node via the second candidate. -/
theorem forward_walks_candidates_witness :
    Forward scnTopo (stateAt 5000) 0 clientDest = Outcome.delivered 1
      ∧ chosenRoute (stateAt 5000) 0 clientDest = some hqBackup := by
  have hi : 1 < (LookupCandidates ((stateAt 5000).tables 0) clientDest).length := by
    decide
  have h2 : (stateAt 5000).act 0 hqBackup.ifaceIndex = true := by decide
  have h1 : (stateAt 5000).act 0 hqPrimary.ifaceIndex = false := by decide
  exact (forward_walks_candidates scnTopo (stateAt 5000) 0 clientDest).2 1 hi h2
    (fun j hj => by
      have hj0 : j = 0 := by omega
      subst hj0
      exact h1)

/-- Claim C5: disabling an interface that is already inactive is a no-op, and
applying the disable action twice leaves the entire simulation state
identical to applying it once. -/
theorem disable_idempotent (s : SimState) (node iface : Nat) :
    applyDisable node iface (applyDisable node iface s) = applyDisable node iface s
    ∧ (s.act node iface = false → applyDisable node iface s = s) := by
  cases s with
  | mk act tables =>
    constructor
    · simp only [applyDisable, SimState.mk.injEq]
      refine ⟨?_, trivial⟩
      funext n i
      by_cases h : n = node ∧ i = iface <;> simp [h]
    · intro hfalse
      simp only [applyDisable, SimState.mk.injEq]
      refine ⟨?_, trivial⟩
      funext n i
      by_cases h : n = node ∧ i = iface
      · rcases h with ⟨rfl, rfl⟩
        simp [hfalse.symm]
      · simp [h]

/-- Witness for the C5 theorem: after the first disable of HQ's HQ-DC
interface the flag is already false, and a second disable leaves the state
identical. -/
theorem disable_idempotent_witness :
    applyDisable 0 2 (applyDisable 0 2 initState) = applyDisable 0 2 initState :=
  (disable_idempotent (applyDisable 0 2 initState) 0 2).2 (by decide)

/-- Claim C6: a disable action on one interface changes only that
interface's active flag — every other interface (in particular the paired
peer interface, which lives on a distinct node) keeps its flag, and the
routing tables are unchanged; the active flags are the only state the action
touches. -/
theorem disable_frame (s : SimState) (node iface : Nat) :
    (applyDisable node iface s).act node iface = false
    ∧ (∀ n i, ¬(n = node ∧ i = iface) → (applyDisable node iface s).act n i = s.act n i)
    ∧ (∀ pn pi2, pn ≠ node → (applyDisable node iface s).act pn pi2 = s.act pn pi2)
    ∧ (applyDisable node iface s).tables = s.tables := by
  refine ⟨if_pos ⟨rfl, rfl⟩, fun n i h => if_neg h, fun pn pi2 h => ?_, rfl⟩
  exact if_neg (fun hc => h hc.1)

/-- Witness for the C6 theorem: disabling HQ's HQ-DC interface (node 0,
interface 2) leaves HQ's other interface and the peer interface on the DC
node unchanged. -/
theorem disable_frame_witness :
    (applyDisable 0 2 initState).act 0 1 = initState.act 0 1
    ∧ (applyDisable 0 2 initState).act 2 1 = initState.act 2 1 :=
  ⟨(disable_frame initState 0 2).2.1 0 1 (by decide),
   (disable_frame initState 0 2).2.2.1 2 1 (by decide)⟩

/-- Claim C7: once an interface's active flag is false, it stays false in
every state reachable by further scheduled actions — disables only set
flags to false and sends never change them, so there is no automatic link
repair. -/
theorem inactive_persists (topo : Nat → Nat → Nat) (acts : List Action) (s : SimState)
    (n i : Nat) (h : s.act n i = false) :
    ((runActions topo acts s).1).act n i = false := by
  induction acts generalizing s with
  | nil => exact h
  | cons a rest ih =>
    cases a with
    | disable n' i' =>
      simp only [runActions, stepAction]
      refine ih (applyDisable n' i' s) ?_
      simp only [applyDisable]
      by_cases hc : n = n' ∧ i = i' <;> simp [hc, h]
    | send src dest =>
      simp only [runActions, stepAction]
      exact ih s h

/-- Witness for the C7 theorem: with HQ's HQ-DC interface disabled, a later
send and a later disable of another interface leave it inactive. -/
theorem inactive_persists_witness :
    ((runActions scnTopo [Action.send 0 clientDest, Action.disable 2 1]
        (applyDisable 0 2 initState)).1).act 0 2 = false :=
  inactive_persists scnTopo [Action.send 0 clientDest, Action.disable 2 1]
    (applyDisable 0 2 initState) 0 2 (by decide)

/-- In a list that is pairwise ordered by a relation, an element that the
relation forbids to come second appears at a strictly earlier position. -/
theorem earlier_position_of_pairwise {α : Type} {R : α → α → Prop}
    {l : List α} {a b : α} (hp : l.Pairwise R) (ha : a ∈ l) (hb : b ∈ l)
    (hne : a ≠ b) (hnr : ¬R b a) :
    ∃ p q, ∃ (hpl : p < l.length) (hql : q < l.length),
      p < q ∧ l.get ⟨p, hpl⟩ = a ∧ l.get ⟨q, hql⟩ = b := by
  induction l with
  | nil => cases ha
  | cons c t ih =>
    rcases List.pairwise_cons.mp hp with ⟨hc, hp'⟩
    by_cases hac : a = c
    · subst hac
      have hbt : b ∈ t := by
        rcases List.mem_cons.mp hb with h | h
        · exact absurd h.symm hne
        · exact h
      rcases List.mem_iff_get.mp hbt with ⟨⟨q', hq'⟩, hq'eq⟩
      exact ⟨0, q' + 1, Nat.succ_pos _, Nat.succ_lt_succ hq', Nat.succ_pos _,
        rfl, hq'eq⟩
    · by_cases hbc : b = c
      · subst hbc
        have hat : a ∈ t := by
          rcases List.mem_cons.mp ha with h | h
          · exact absurd h hac
          · exact h
        exact absurd (hc a hat) hnr
      · have hat : a ∈ t := by
          rcases List.mem_cons.mp ha with h | h
          · exact absurd h hac
          · exact h
        have hbt : b ∈ t := by
          rcases List.mem_cons.mp hb with h | h
          · exact absurd h hbc
          · exact h
        rcases ih hp' hat hbt with ⟨p, q, hpl, hql, hpq, hpa, hqb⟩
        exact ⟨p + 1, q + 1, Nat.succ_lt_succ hpl, Nat.succ_lt_succ hql,
          Nat.succ_lt_succ hpq, hpa, hqb⟩

theorem scheduleAll_length {α : Type} (evs : List (Nat × α)) :
    (scheduleAll evs).length = evs.length := by
  simp [scheduleAll]

theorem scheduleAll_get {α : Type} (evs : List (Nat × α)) (i : Nat)
    (h : i < evs.length) :
    (scheduleAll evs).get ⟨i, (scheduleAll_length evs).symm ▸ h⟩
      = ((evs.get ⟨i, h⟩).1, i, (evs.get ⟨i, h⟩).2) := by
  simp [scheduleAll, List.get_eq_getElem, List.getElem_map, List.getElem_enum]

/-- Claim C4: two events scheduled for identical timestamps execute in the
exact order the schedule calls were made — the i-th and j-th scheduled events
(i before j) with equal times keep their relative order in the execution
order, so a fixed schedule sequence replays deterministically. -/
theorem scheduler_fifo_tie_break {α : Type} (evs : List (Nat × α))
    (i j : Nat) (hij : i < j) (hj : j < evs.length)
    (heq : (evs.get ⟨i, Nat.lt_trans hij hj⟩).1 = (evs.get ⟨j, hj⟩).1) :
    ∃ p q, ∃ (hpl : p < (executionOrder (scheduleAll evs)).length)
        (hql : q < (executionOrder (scheduleAll evs)).length),
      p < q
      ∧ (executionOrder (scheduleAll evs)).get ⟨p, hpl⟩
          = ((evs.get ⟨i, Nat.lt_trans hij hj⟩).1, i,
            (evs.get ⟨i, Nat.lt_trans hij hj⟩).2)
      ∧ (executionOrder (scheduleAll evs)).get ⟨q, hql⟩
          = ((evs.get ⟨j, hj⟩).1, j, (evs.get ⟨j, hj⟩).2) := by
  have hi := Nat.lt_trans hij hj
  have hmema : ((evs.get ⟨i, hi⟩).1, i, (evs.get ⟨i, hi⟩).2) ∈ scheduleAll evs := by
    rw [← scheduleAll_get evs i hi]
    exact (scheduleAll evs).get_mem _ _
  have hmemb : ((evs.get ⟨j, hj⟩).1, j, (evs.get ⟨j, hj⟩).2) ∈ scheduleAll evs := by
    rw [← scheduleAll_get evs j hj]
    exact (scheduleAll evs).get_mem _ _
  have hperm := List.perm_insertionSort evLe (scheduleAll evs)
  have hp : (executionOrder (scheduleAll evs)).Pairwise evLe :=
    List.sorted_insertionSort evLe (scheduleAll evs)
  refine earlier_position_of_pairwise hp (hperm.mem_iff.mpr hmema)
    (hperm.mem_iff.mpr hmemb) ?_ ?_
  · intro h
    have : i = j := congrArg (fun p => p.2.1) h
    omega
  · intro h
    rcases h with h | ⟨_, h⟩
    · simp only [heq] at h
      omega
    · simp only at h
      omega

/-- Witness for the C4 theorem: two events both scheduled for t = 7 execute
in schedule-call order. -/
theorem scheduler_fifo_tie_break_witness :
    ∃ p q, ∃ (hpl : p < (executionOrder (scheduleAll [(7, 0), (7, 1)])).length)
        (hql : q < (executionOrder (scheduleAll [(7, 0), (7, 1)])).length),
      p < q
      ∧ (executionOrder (scheduleAll [(7, 0), (7, 1)])).get ⟨p, hpl⟩ = (7, 0, 0)
      ∧ (executionOrder (scheduleAll [(7, 0), (7, 1)])).get ⟨q, hql⟩ = (7, 1, 1) :=
  scheduler_fifo_tie_break [(7, 0), (7, 1)] 0 1 (by decide) (by decide) (by decide)

theorem runActions_length (topo : Nat → Nat → Nat) (acts : List Action) (s : SimState) :
    (runActions topo acts s).2.length = acts.countP isSend := by
  induction acts generalizing s with
  | nil => rfl
  | cons a rest ih =>
    cases a with
    | disable n i =>
      simp only [runActions, stepAction, Option.toList, List.nil_append,
        List.countP_cons]
      simp [isSend, ih]
    | send src dest =>
      simp only [runActions, stepAction, Option.toList, List.cons_append,
        List.nil_append, List.countP_cons, List.length_cons]
      simp [isSend, ih]

theorem forward_only_outcomes (topo : Nat → Nat → Nat) (s : SimState) (src dest : Nat) :
    (∃ n, Forward topo s src dest = .delivered n)
    ∨ Forward topo s src dest = .dropped .noRoute
    ∨ Forward topo s src dest = .dropped .allRoutesDown := by
  simp only [Forward]
  by_cases h : LookupCandidates (s.tables src) dest = []
  · rw [if_pos h]
    exact Or.inr (Or.inl rfl)
  · rw [if_neg h]
    cases hfa : firstActive (s.act src) (LookupCandidates (s.tables src) dest) with
    | some r => exact Or.inl ⟨topo src r.ifaceIndex, rfl⟩
    | none => exact Or.inr (Or.inr rfl)

theorem runActions_outcome_mem (topo : Nat → Nat → Nat) (acts : List Action)
    (s : SimState) :
    ∀ o ∈ (runActions topo acts s).2,
      (∃ n, o = Outcome.delivered n)
      ∨ o = .dropped .noRoute ∨ o = .dropped .allRoutesDown := by
  induction acts generalizing s with
  | nil => intro o ho; cases ho
  | cons a rest ih =>
    intro o ho
    cases a with
    | disable n i =>
      simp only [runActions, stepAction, Option.toList, List.nil_append] at ho
      exact ih _ o ho
    | send src dest =>
      simp only [runActions, stepAction, Option.toList, List.cons_append,
        List.nil_append, List.mem_cons] at ho
      rcases ho with rfl | ho'
      · rcases forward_only_outcomes topo s src dest with ⟨n, hn⟩ | h | h
        · exact Or.inl ⟨n, hn⟩
        · exact Or.inr (Or.inl h)
        · exact Or.inr (Or.inr h)
      · exact ih _ o ho'

theorem countP_enumFrom {α : Type} (p : α → Bool) :
    ∀ (n : Nat) (l : List α),
      (l.enumFrom n).countP (fun q => p q.2) = l.countP p := by
  intro n l
  induction l generalizing n with
  | nil => rfl
  | cons a t ih =>
    simp only [List.enumFrom, List.countP_cons, ih]

/-- Claim C8: the packet-level outcomes are ordinary return values — every
send produces exactly one recorded outcome, which is a delivery or one of the
two drop reasons and nothing else — and the run loop drains every event due
at or before the stop time regardless of those outcomes. -/
theorem outcomes_are_values_loop_continues (topo : Nat → Nat → Nat) (stop : Nat)
    (evs : List (Nat × Action)) (s : SimState) :
    (runSim topo stop evs s).2.length
        = evs.countP (fun e => isSend e.2 && decide (e.1 ≤ stop))
    ∧ ∀ o ∈ (runSim topo stop evs s).2,
        (∃ n, o = Outcome.delivered n)
        ∨ o = Outcome.dropped .noRoute ∨ o = Outcome.dropped .allRoutesDown := by
  constructor
  · rw [runSim, runActions_length, List.countP_map, List.countP_filter]
    simp only [executionOrder]
    rw [List.Perm.countP_eq _ (List.perm_insertionSort evLe (scheduleAll evs))]
    rw [scheduleAll, List.countP_map, List.enum]
    exact countP_enumFrom (fun e => isSend e.2 && decide (e.1 ≤ stop)) 0 evs
  · intro o ho
    exact runActions_outcome_mem topo _ s o ho

/-- Witness for the C8 theorem: a two-event schedule (one send due before the
stop time, one send after it) records exactly one outcome, and the delivered
outcome produced by the due send is one of the three outcome forms. -/
theorem outcomes_are_values_loop_continues_witness :
    (runSim scnTopo 16000 [(1000, Action.send 0 clientDest),
        (17000, Action.send 0 clientDest)] initState).2.length
      = List.countP (fun e => isSend e.2 && decide (e.1 ≤ 16000))
          [(1000, Action.send 0 clientDest), (17000, Action.send 0 clientDest)]
    ∧ ((∃ n, Outcome.delivered 2 = Outcome.delivered n)
        ∨ Outcome.delivered 2 = Outcome.dropped .noRoute
        ∨ Outcome.delivered 2 = Outcome.dropped .allRoutesDown) :=
  ⟨(outcomes_are_values_loop_continues scnTopo 16000
      [(1000, Action.send 0 clientDest), (17000, Action.send 0 clientDest)]
      initState).1,
   (outcomes_are_values_loop_continues scnTopo 16000
      [(1000, Action.send 0 clientDest), (17000, Action.send 0 clientDest)]
      initState).2 (Outcome.delivered 2) (by decide)⟩

/-- Claim C2: in the configured topology with the HQ-DC link's interfaces set
inactive at t = 4.0 s on both ends, a send from HQ to the data-center
destination at t = 5.0 s skips the metric-10 route (its interface is
inactive) and is delivered via the metric-20 route to the branch node, while
a send at t = 3.0 s (before the failure) uses the metric-10 route and is
delivered directly to the DC node. -/
theorem scenario_failover :
    (stateAt 3000).act 0 2 = true
    ∧ chosenRoute (stateAt 3000) 0 clientDest = some hqPrimary
    ∧ Forward scnTopo (stateAt 3000) 0 clientDest = Outcome.delivered 2
    ∧ (stateAt 5000).act 0 2 = false
    ∧ chosenRoute (stateAt 5000) 0 clientDest = some hqBackup
    ∧ Forward scnTopo (stateAt 5000) 0 clientDest = Outcome.delivered 1 := by
  decide

/-- Claim C9: the branch node's two routes toward 10.1.2.0/24 carry the same
default metric, so for every destination inside 10.1.2.0/24 the lookup keeps
them in insertion order, and whenever the Branch-DC interface (index 2) is
active the walk selects the first-added route (next hop 10.1.3.2), leaving
the HQ-Branch route as the later-inserted alternative. -/
theorem branch_equal_metric_tie (dest : Nat) (act : Nat → Nat → Bool)
    (hdest : Nat.land dest mask24 = ipv4 10 1 2 0) (hact : act 1 2 = true) :
    branchViaDC.metric = branchViaHQ.metric
    ∧ LookupCandidates (scnTables 1) dest = [branchViaDC, branchViaHQ]
    ∧ chosenRoute ⟨act, scnTables⟩ 1 dest = some branchViaDC := by
  have hm1 : matchesRoute dest branchViaDC = true := by
    show (Nat.land dest mask24 == ipv4 10 1 2 0) = true
    rw [hdest]
    simp
  have hm2 : matchesRoute dest branchViaHQ = true := by
    show (Nat.land dest mask24 == ipv4 10 1 2 0) = true
    rw [hdest]
    simp
  have hfm : (scnTables 1).filter (matchesRoute dest) = [branchViaDC, branchViaHQ] := by
    show List.filter (matchesRoute dest) [branchViaDC, branchViaHQ] = _
    rw [List.filter_cons, List.filter_cons]
    simp [hm1, hm2]
  have hbest : bestMaskLen (scnTables 1) dest = 24 := by
    rw [bestMaskLen, hfm]
    decide
  have hl1 : isLpm (scnTables 1) dest branchViaDC = true := by
    rw [isLpm, hm1, hbest]
    decide
  have hl2 : isLpm (scnTables 1) dest branchViaHQ = true := by
    rw [isLpm, hm2, hbest]
    decide
  have hfl : (scnTables 1).filter (isLpm (scnTables 1) dest)
      = [branchViaDC, branchViaHQ] := by
    show List.filter (isLpm (scnTables 1) dest) [branchViaDC, branchViaHQ] = _
    rw [List.filter_cons, List.filter_cons]
    simp [hl1, hl2]
  have hlook : LookupCandidates (scnTables 1) dest = [branchViaDC, branchViaHQ] := by
    rw [LookupCandidates, hfl]
    decide
  refine ⟨rfl, hlook, ?_⟩
  show firstActive (act 1) (LookupCandidates (scnTables 1) dest) = some branchViaDC
  rw [hlook]
  simp only [firstActive]
  rw [if_pos (show act 1 branchViaDC.ifaceIndex = true from hact)]

/-- Witness for the C9 theorem: the DC's address on the HQ-DC link,
10.1.2.2, lies inside 10.1.2.0/24, with every interface active. -/
theorem branch_equal_metric_tie_witness :
    branchViaDC.metric = branchViaHQ.metric
    ∧ LookupCandidates (scnTables 1) (ipv4 10 1 2 2) = [branchViaDC, branchViaHQ]
    ∧ chosenRoute ⟨fun _ _ => true, scnTables⟩ 1 (ipv4 10 1 2 2) = some branchViaDC :=
  branch_equal_metric_tie (ipv4 10 1 2 2) (fun _ _ => true) (by decide) rfl

/-- Claim C10: every packet the traffic client generates is addressed to
10.1.3.2, HQ's two candidate routes for that destination carry the identical
/24 mask (so longest-prefix matching eliminates neither), and the lookup at
HQ is decided entirely by metric: the metric-10 route before the metric-20
route. -/
theorem client_packets_lpm_by_metric :
    (∀ k : Nat, (genPacket k).dest = ipv4 10 1 3 2)
    ∧ hqPrimary.mask = hqBackup.mask
    ∧ maskLen hqPrimary.mask = maskLen hqBackup.mask
    ∧ LookupCandidates (scnTables 0) clientDest = [hqPrimary, hqBackup]
    ∧ hqPrimary.metric = 10 ∧ hqBackup.metric = 20 :=
  ⟨fun _ => rfl, rfl, rfl, by decide, rfl, rfl⟩

end WanSim
